import Mathlib

/-!
# Verification of the SQL SELECT-statement builder

Shallow embedding of `src/sql_generator/QueryObjects.py` and
`src/sql_generator/query_generator.py`, together with theorems settling the
specification claims about the builder.

Modelling conventions:
* Python strings are Lean `String`s; slicing `name[:k]` is `strTake name k`
  (character-wise, which agrees with Python for the identifiers involved);
  `str.upper()` is `pyUpper` (ASCII upper-casing, which agrees with Python's
  `upper` on ASCII input).
* Python `dict`s (which preserve insertion order and have unique keys) are
  association lists in insertion order; lookup is `alookup` (first match, which
  is dict semantics since keys are unique).
* A function that can raise `ValueError`/`KeyError` returns `Except String α`,
  the error payload being the exception message.
* The alias-generation `while` loop of `_generate_table_aliases` can fail to
  terminate (it keeps re-testing the full table name once the prefix length
  exceeds the name's length).  Phases that contain it return `Option`:
  `none` models that non-terminating execution, `some` a terminating one.
* `Table.joins` defaults to `None` in Python; the builder only ever reads it
  (never distinguishes `None` from `{}` except by the exception class of a
  failed access), so it is modelled as a list with default `[]`.
-/

/-- `JoinType` enum from `QueryObjects.py`. -/
inductive JoinType where
  | INNER
  | LEFT
  | RIGHT
  | FULL
  deriving DecidableEq, Repr

/-- The `value` of each `JoinType` enum member. -/
def JoinType.value : JoinType → String
  | .INNER => "INNER JOIN"
  | .LEFT => "LEFT JOIN"
  | .RIGHT => "RIGHT JOIN"
  | .FULL => "FULL OUTER JOIN"

/-- `AggFunction` enum from `QueryObjects.py`. -/
inductive AggFunction where
  | COUNT
  | SUM
  | AVG
  | MIN
  | MAX
  | COUNT_DISTINCT
  deriving DecidableEq, Repr

/-- The `value` of each `AggFunction` enum member. -/
def AggFunction.value : AggFunction → String
  | .COUNT => "COUNT"
  | .SUM => "SUM"
  | .AVG => "AVG"
  | .MIN => "MIN"
  | .MAX => "MAX"
  | .COUNT_DISTINCT => "COUNT(DISTINCT"

/-- `TableJoinAttribute` dataclass: how to join a source table to a target. -/
structure TableJoinAttribute where
  source_column : String
  target_column : String
  table_name : Option String := none
  deriving DecidableEq, Repr

/-- `TableJoinAttribute.get_table_name`: Python `self.table_name or join_key`
(`or` falls through on `None` and on the falsy empty string). -/
def TableJoinAttribute.get_table_name (j : TableJoinAttribute) (join_key : String) : String :=
  match j.table_name with
  | some n => if n = "" then join_key else n
  | none => join_key

/-- `Table` dataclass: a database table, optional user alias, and its
relationship mapping (a Python dict, modelled as an insertion-ordered
association list). -/
structure Table where
  name : String
  «alias» : Option String := none
  joins : List (String × TableJoinAttribute) := []
  deriving DecidableEq, Repr

/-- `SelectColumn` dataclass. -/
structure SelectColumn where
  column : String
  table : Option String := none
  «alias» : Option String := none
  agg_function : Option AggFunction := none
  distinct : Bool := false
  deriving DecidableEq, Repr

/-- `ViaStep` dataclass. -/
structure ViaStep where
  table_name : String
  join_type : JoinType := JoinType.INNER
  deriving DecidableEq, Repr

/-- `Join` dataclass: a join request, optionally carrying a via chain. -/
structure Join where
  join_key : String
  via_steps : Option (List ViaStep) := none
  deriving DecidableEq, Repr

/-- Python truthiness of an `Optional[str]`: `None` and `""` are falsy.
Returns the string when truthy. -/
def truthyStr : Option String → Option String
  | some s => if s = "" then none else some s
  | none => none

/-- Python truthiness of an `Optional[list]`: `None` and `[]` are falsy. -/
def truthyList : Option (List ViaStep) → Bool
  | some l => !l.isEmpty
  | none => false

/-- The user-declared alias of a table, when truthy (Python `if table.alias:`). -/
def Table.userAlias (t : Table) : Option String :=
  truthyStr t.«alias»

/-- Python string slicing `s[:k]` (character-wise). -/
def strTake (s : String) (k : Nat) : String :=
  String.mk (s.data.take k)

/-- Python `str.upper()` (ASCII case mapping). -/
def pyUpper (s : String) : String :=
  String.mk (s.data.map Char.toUpper)

/-- String membership in a list (Python `in` on a set/list of strings). -/
def selem (x : String) : List String → Bool
  | [] => false
  | y :: l => if y = x then true else selem x l

/-- Dict lookup: first (= unique) entry with the given key. -/
def alookup {α : Type} (k : String) : List (String × α) → Option α
  | [] => none
  | (k', v) :: m => if k' = k then some v else alookup k m

/-- Python `len(names) != len(set(names))`: some element repeats. -/
def hasDup : List String → Bool
  | [] => false
  | x :: xs => selem x xs || hasDup xs

/-- Python list formatting `['a', 'b']` used inside an error message. -/
def pyStrList (l : List String) : String :=
  "[" ++ String.intercalate ", " (l.map (fun s => "'" ++ s ++ "'")) ++ "]"

/-- The duplicate-alias error message of `_generate_table_aliases`. -/
def dupAliasMsg (a : String) : String :=
  "Duplicate alias '" ++ a ++ "' found"

/-- `SelectColumn.to_sql`: render one structured SELECT entry against the
table-alias mapping.  Errors model the raised `ValueError`. -/
def SelectColumn.to_sql (c : SelectColumn) (table_aliases : List (String × String)) :
    Except String String :=
  match (match truthyStr c.table with
         | some tn =>
           match alookup tn table_aliases with
           | some a => Except.ok (a ++ "." ++ c.column)
           | none => Except.error ("Table '" ++ tn ++ "' not found in aliases")
         | none => Except.ok c.column : Except String String) with
  | Except.error e => Except.error e
  | Except.ok sql_column =>
    let sql_expr :=
      match c.agg_function with
      | some f =>
        if f = AggFunction.COUNT_DISTINCT then "COUNT(DISTINCT " ++ sql_column ++ ")"
        else f.value ++ "(" ++ sql_column ++ ")"
      | none => if c.distinct then "DISTINCT " ++ sql_column else sql_column
    match truthyStr c.«alias» with
    | some a => Except.ok (sql_expr ++ " AS " ++ a)
    | none => Except.ok sql_expr

/-- One round of the alias-collision loop of `_generate_table_aliases`:
starting from `alias_length = 3`, Python lengthens the prefix while it
collides with a used alias.  Once the length passes `name`'s length the tested
string is the full name on every iteration, so the loop terminates exactly
when some prefix of length `3, 4, …, name.length` (or the full name) is
unused; `none` models the non-terminating run. -/
def findAlias (name : String) (used : List String) : Option String :=
  ((List.range' 3 (name.data.length + 1)).find?
      (fun k => !selem (strTake name k) used)).map (fun k => strTake name k)

/-- First pass of `_generate_table_aliases`: collect user-declared aliases in
table order, failing on a duplicate.  Returns the collected entries and the
extended set of used aliases. -/
def firstPass : List Table → List String → Except String (List (String × String) × List String)
  | [], used => Except.ok ([], used)
  | t :: ts, used =>
    match t.userAlias with
    | none => firstPass ts used
    | some a =>
      if selem a used then Except.error (dupAliasMsg a)
      else
        match firstPass ts (used ++ [a]) with
        | Except.error e => Except.error e
        | Except.ok (m, u) => Except.ok ((t.name, a) :: m, u)

/-- Second pass of `_generate_table_aliases`: generate an alias for every
table without a user alias, via the collision loop (`findAlias`).  `none`
models a run in which the loop never terminates. -/
def secondPass : List Table → List String → Option (List (String × String) × List String)
  | [], used => some ([], used)
  | t :: ts, used =>
    match t.userAlias with
    | some _ => secondPass ts used
    | none =>
      match findAlias t.name used with
      | none => none
      | some a =>
        match secondPass ts (used ++ [a]) with
        | none => none
        | some (m, u) => some ((t.name, a) :: m, u)

/-- `QueryBuilder._generate_table_aliases`: both passes; the resulting dict
holds the first-pass entries followed by the second-pass entries (insertion
order). -/
def generateTableAliases (tables : List Table) :
    Option (Except String (List (String × String))) :=
  match firstPass tables [] with
  | Except.error e => some (Except.error e)
  | Except.ok (m1, u1) =>
    match secondPass tables u1 with
    | none => none
    | some (m2, _) => some (Except.ok (m1 ++ m2))

/-- Split a string at its first `'.'` (Python `column.split(".", 1)` guarded
by `"." in column`); `none` when there is no dot. -/
def splitFirstDot : List Char → Option (List Char × List Char)
  | [] => none
  | c :: rest =>
    if c = '.' then some ([], rest)
    else (splitFirstDot rest).map (fun p => (c :: p.1, p.2))

/-- A SELECT-list entry: plain string or structured `SelectColumn`. -/
inductive SelectItem where
  | str (s : String)
  | col (c : SelectColumn)
  deriving DecidableEq, Repr

/-- `QueryBuilder._convert_columns_to_aliases`: rewrite each SELECT entry
against the alias mapping, in order. -/
def convertColumns (table_aliases : List (String × String)) :
    List SelectItem → Except String (List String)
  | [] => Except.ok []
  | SelectItem.col c :: rest =>
    match c.to_sql table_aliases with
    | Except.error e => Except.error e
    | Except.ok s =>
      match convertColumns table_aliases rest with
      | Except.error e => Except.error e
      | Except.ok l => Except.ok (s :: l)
  | SelectItem.str s :: rest =>
    match splitFirstDot s.data with
    | some (tn, cn) =>
      let table_name := String.mk tn
      let col_name := String.mk cn
      match alookup table_name table_aliases with
      | some a =>
        match convertColumns table_aliases rest with
        | Except.error e => Except.error e
        | Except.ok l => Except.ok ((a ++ "." ++ col_name) :: l)
      | none =>
        Except.error ("Table '" ++ table_name ++ "' not found in tables list. " ++
          "Available tables: " ++ pyStrList (table_aliases.map Prod.fst))
    | none =>
      match convertColumns table_aliases rest with
      | Except.error e => Except.error e
      | Except.ok l => Except.ok (s :: l)

/-- `QueryBuilder._find_join_to_table`: first join key (in mapping order) on
`from_table` whose relationship's effective target name is `to_table_name`. -/
def findJoinToTable (from_table : Table) (to_table_name : String) : Except String String :=
  match from_table.joins.find? (fun kv => kv.2.get_table_name kv.1 == to_table_name) with
  | some kv => Except.ok kv.1
  | none =>
    Except.error ("No join found from '" ++ from_table.name ++ "' to '" ++ to_table_name ++ "'")

/-- Split a character list at its last space (Python `rsplit(" ", 1)`);
`none` when no space occurs. -/
def rsplitLastSpace : List Char → Option (List Char × List Char)
  | [] => none
  | c :: rest =>
    match rsplitLastSpace rest with
    | some (b, a) => some (c :: b, a)
    | none => if c = ' ' then some ([], rest) else none

/-- `QueryBuilder._parse_join_string`: `"orders"` ↦ `("INNER JOIN", "orders")`;
otherwise the text before the last space, upper-cased, is the join keyword and
the trailing token is the table name. -/
def parseJoinString (join_str : String) : String × String :=
  match rsplitLastSpace join_str.data with
  | none => ("INNER JOIN", join_str)
  | some (b, a) => (pyUpper (String.mk b), String.mk a)

/-- `QueryBuilder._build_direct_join`: one JOIN clause (no via chain).
The `"KeyError"` branch models the Python dict access
`self._table_aliases[primary_table.name]`, which cannot fail when the alias
mapping covers every table of the query. -/
def buildDirectJoin (table_aliases : List (String × String)) (primary_table : Table)
    (join_key join_type : String) : Except String String :=
  match alookup join_key primary_table.joins with
  | none =>
    Except.error ("Join '" ++ join_key ++ "' not found in table '" ++
      primary_table.name ++ "' joins")
  | some join_def =>
    let target_table_name := join_def.get_table_name join_key
    match alookup target_table_name table_aliases with
    | none =>
      Except.error ("Target table '" ++ target_table_name ++ "' not found in tables list")
    | some target_alias =>
      match alookup primary_table.name table_aliases with
      | none => Except.error "KeyError"
      | some primary_alias =>
        let join_condition := primary_alias ++ "." ++ join_def.source_column ++ " = " ++
          target_alias ++ "." ++ join_def.target_column
        Except.ok (join_type ++ " " ++
          (target_table_name ++ " " ++ target_alias ++ " ON " ++ join_condition))

/-- `QueryBuilder._build_via_join_with_steps`: walk the via steps with a
current-table cursor, emitting one direct-join clause per step and advancing
the cursor through the table registry. -/
def buildViaJoinWithSteps (registry : List (String × Table))
    (table_aliases : List (String × String)) :
    Table → List ViaStep → Except String (List String)
  | _, [] => Except.ok []
  | current_table, via_step :: rest =>
    if (alookup via_step.table_name table_aliases).isNone then
      Except.error ("Via table '" ++ via_step.table_name ++ "' not found in tables list")
    else
      match findJoinToTable current_table via_step.table_name with
      | Except.error e => Except.error e
      | Except.ok via_join_key =>
        match buildDirectJoin table_aliases current_table via_join_key
            via_step.join_type.value with
        | Except.error e => Except.error e
        | Except.ok join_clause =>
          match alookup via_step.table_name registry with
          | none => Except.error "KeyError"
          | some next_table =>
            match buildViaJoinWithSteps registry table_aliases next_table rest with
            | Except.error e => Except.error e
            | Except.ok clauses => Except.ok (join_clause :: clauses)

/-- One join request: structured `Join` object or plain string. -/
inductive JoinRequest where
  | obj (j : Join)
  | str (s : String)
  deriving DecidableEq, Repr

/-- The builder's `joins` argument: a request list, a single `Join`, or
`None`. -/
inductive JoinsArg where
  | ofList (l : List JoinRequest)
  | ofJoin (j : Join)
  | null
  deriving DecidableEq, Repr

/-- Constructor normalisation `self.joins = joins or []` (`None` and the empty
list are falsy). -/
def normalizeJoins : JoinsArg → JoinsArg
  | JoinsArg.null => JoinsArg.ofList []
  | JoinsArg.ofList l => JoinsArg.ofList l
  | JoinsArg.ofJoin j => JoinsArg.ofJoin j

/-- Clauses produced for one join request (the body of the per-item branch of
`_generate_join_clauses`). -/
def joinRequestClauses (registry : List (String × Table))
    (table_aliases : List (String × String)) (primary_table : Table) :
    JoinRequest → Except String (List String)
  | JoinRequest.obj j =>
    if truthyList j.via_steps then
      buildViaJoinWithSteps registry table_aliases primary_table (j.via_steps.getD [])
    else
      match buildDirectJoin table_aliases primary_table j.join_key JoinType.INNER.value with
      | Except.error e => Except.error e
      | Except.ok c => Except.ok [c]
  | JoinRequest.str s =>
    let (join_type, join_key) := parseJoinString s
    match buildDirectJoin table_aliases primary_table join_key join_type with
    | Except.error e => Except.error e
    | Except.ok c => Except.ok [c]

/-- Clauses of a request list, concatenated in request order. -/
def requestListClauses (registry : List (String × Table))
    (table_aliases : List (String × String)) (primary_table : Table) :
    List JoinRequest → Except String (List String)
  | [] => Except.ok []
  | r :: rs =>
    match joinRequestClauses registry table_aliases primary_table r with
    | Except.error e => Except.error e
    | Except.ok cs =>
      match requestListClauses registry table_aliases primary_table rs with
      | Except.error e => Except.error e
      | Except.ok rest => Except.ok (cs ++ rest)

/-- `QueryBuilder._generate_join_clauses` (after constructor normalisation of
the `joins` argument). -/
def generateJoinClauses (registry : List (String × Table))
    (table_aliases : List (String × String)) (primary_table : Table) :
    JoinsArg → Except String (List String)
  | JoinsArg.ofList l => requestListClauses registry table_aliases primary_table l
  | JoinsArg.ofJoin j => joinRequestClauses registry table_aliases primary_table (JoinRequest.obj j)
  | JoinsArg.null => requestListClauses registry table_aliases primary_table []

/-- `self.tables`: the name → table registry dict, in list order. -/
def mkRegistry (tables : List Table) : List (String × Table) :=
  tables.map (fun t => (t.name, t))

/-- The whole pipeline: `QueryBuilder(...)` construction followed by
`build()`.  Outer `Option`: `none` models the non-terminating alias loop.
Inner `Except`: a raised `ValueError` aborts everything before any SQL string
exists.  The success payload is `(sql, params)` with `params` always the empty
dict.  The duplicate-table-name message is abstracted (Python formats a `set`
there); every other message is modelled verbatim. -/
def buildQuery (tables : List Table) (select : List SelectItem) (joins : JoinsArg) :
    Option (Except String (String × List (String × String))) :=
  if hasDup (tables.map Table.name) then
    some (Except.error "Duplicate table names found")
  else
    match generateTableAliases tables with
    | none => none
    | some (Except.error e) => some (Except.error e)
    | some (Except.ok table_aliases) =>
      match convertColumns table_aliases select with
      | Except.error e => some (Except.error e)
      | Except.ok column_aliases =>
        match tables with
        | [] => some (Except.error "IndexError")
        | primary_table :: _ =>
          let select_clause := "SELECT " ++ String.intercalate ", " column_aliases
          let from_clause := "FROM " ++ primary_table.name ++ " " ++
            ((alookup primary_table.name table_aliases).getD "")
          match generateJoinClauses (mkRegistry tables) table_aliases primary_table
              (normalizeJoins joins) with
          | Except.error e => some (Except.error e)
          | Except.ok join_clauses =>
            some (Except.ok
              (String.intercalate " " ([select_clause, from_clause] ++ join_clauses), []))

deriving instance DecidableEq for Except

/-- The suffix that `SelectColumn.to_sql` appends when an output alias is
truthy (the final `AS` branch of the Python method). -/
def aliasSuffix (c : SelectColumn) : String :=
  match truthyStr c.«alias» with
  | some a => " AS " ++ a
  | none => ""

/-- Spec scenario: `Table("users", alias="u")` with the `orders`
relationship. -/
def usersTable : Table := ⟨"users", some "u", [("orders", ⟨"id", "user_id", none⟩)]⟩

/-- Spec scenario: `Table("orders")`. -/
def ordersTable : Table := ⟨"orders", none, []⟩

/-- Spec scenario table list. -/
def scenarioTables : List Table := [usersTable, ordersTable]

/-- Spec scenario: `SelectColumn("id", table="orders", agg_function=COUNT,
alias="n")`. -/
def countColumn : SelectColumn := ⟨"id", some "orders", some "n", some AggFunction.COUNT, false⟩

/-- The select list exactly as the claim writes it (`"u.name"` uses the
alias as qualifier). -/
def selectAsClaimed : List SelectItem := [SelectItem.str "u.name", SelectItem.col countColumn]

/-- The select list with the table-name qualifier the code expects. -/
def selectByTableName : List SelectItem :=
  [SelectItem.str "users.name", SelectItem.col countColumn]

/-- The SQL string the scenario claims. -/
def claimedScenarioSql : String :=
  "SELECT u.name, COUNT(ord.id) AS n FROM users u INNER JOIN orders ord ON u.id = ord.user_id"

/-- The alias mapping of the spec scenario. -/
def scenarioAliases : List (String × String) := [("users", "u"), ("orders", "ord")]

/-- Table list on which the alias-collision loop never terminates: `users`
receives the generated alias `use`, which is the full name of the second
table. -/
def divergingTables : List Table := [⟨"users", none, []⟩, ⟨"use", none, []⟩]

/-- Via-chain scenario: users → orders → order_items → products. -/
def usersVia : Table := ⟨"users", none, [("orders", ⟨"id", "user_id", none⟩)]⟩

/-- Via-chain scenario: orders → order_items. -/
def ordersVia : Table := ⟨"orders", none, [("order_items", ⟨"id", "order_id", none⟩)]⟩

/-- Via-chain scenario: order_items → products. -/
def itemsVia : Table := ⟨"order_items", none, [("products", ⟨"product_id", "id", none⟩)]⟩

/-- Via-chain scenario: products (chain end). -/
def productsVia : Table := ⟨"products", none, []⟩

/-- Via-chain scenario table list. -/
def viaTables : List Table := [usersVia, ordersVia, itemsVia, productsVia]

/-- The 3 via-steps of the scenario, the last one LEFT. -/
def viaSteps3 : List ViaStep :=
  [⟨"orders", JoinType.INNER⟩, ⟨"order_items", JoinType.INNER⟩, ⟨"products", JoinType.LEFT⟩]

/-- Registry of the via-chain scenario. -/
def viaRegistry : List (String × Table) := mkRegistry viaTables

/-- Alias mapping generated for the via-chain scenario. -/
def viaAliases : List (String × String) :=
  [("users", "use"), ("orders", "ord"), ("order_items", "orde"), ("products", "pro")]

/-- The 3 JOIN clauses the via-chain scenario produces. -/
def viaClauses : List String :=
  ["INNER JOIN orders ord ON use.id = ord.user_id",
   "INNER JOIN order_items orde ON ord.id = orde.order_id",
   "LEFT JOIN products pro ON orde.product_id = pro.id"]

/-- A table whose relationship mapping has a join key containing a space
(`"a b"`, overridden to target `orders`). -/
def usersSpaceKey : Table := ⟨"users", some "u", [("a b", ⟨"id", "x", some "orders"⟩)]⟩

/-- Registry for the space-key fixture. -/
def spaceKeyRegistry : List (String × Table) := mkRegistry [usersSpaceKey, ordersTable]

/-- A single table whose relationship targets a table not in the query. -/
def usersPay : Table := ⟨"users", some "u", [("payments", ⟨"id", "uid", none⟩)]⟩

theorem selem_iff {x : String} {l : List String} : selem x l = true ↔ x ∈ l := by
  induction l with
  | nil => simp [selem]
  | cons y l ih =>
    by_cases h : y = x
    · subst h; simp [selem]
    · simp only [selem, if_neg h, ih, List.mem_cons]
      exact ⟨Or.inr, fun hc => hc.elim (fun he => absurd he.symm h) id⟩

theorem selem_eq_false_iff {x : String} {l : List String} : selem x l = false ↔ x ∉ l := by
  rw [← Bool.not_eq_true, not_iff_not, selem_iff]

theorem hasDup_iff {l : List String} : hasDup l = true ↔ ¬ l.Nodup := by
  induction l with
  | nil => simp [hasDup]
  | cons x xs ih =>
    simp only [hasDup, Bool.or_eq_true, selem_iff, ih, List.nodup_cons]
    by_cases hx : x ∈ xs <;> by_cases hd : xs.Nodup <;> simp [hx, hd]

theorem alookup_eq_some_of_mem {α : Type} {m : List (String × α)} {k : String} {v : α}
    (hnd : (m.map Prod.fst).Nodup) (hm : (k, v) ∈ m) : alookup k m = some v := by
  induction m with
  | nil => cases hm
  | cons e m ih =>
    obtain ⟨k', v'⟩ := e
    simp only [List.map_cons, List.nodup_cons] at hnd
    rcases List.mem_cons.mp hm with he | hm'
    · cases he
      simp [alookup]
    · have hk : k' ≠ k := by
        rintro rfl
        exact hnd.1 (List.mem_map.mpr ⟨(k', v), hm', rfl⟩)
      simp only [alookup, if_neg hk]
      exact ih hnd.2 hm'

theorem alookup_append_left {α : Type} {m₁ m₂ : List (String × α)} {k : String} {v : α}
    (h : alookup k m₁ = some v) : alookup k (m₁ ++ m₂) = some v := by
  induction m₁ with
  | nil => simp [alookup] at h
  | cons e m ih =>
    obtain ⟨k', v'⟩ := e
    by_cases hk : k' = k <;> simp only [alookup, if_pos, if_neg, hk, List.cons_append] at h ⊢
    · exact h
    · exact ih h

theorem alookup_append_right {α : Type} {m₁ m₂ : List (String × α)} {k : String}
    (h : k ∉ m₁.map Prod.fst) : alookup k (m₁ ++ m₂) = alookup k m₂ := by
  induction m₁ with
  | nil => rfl
  | cons e m ih =>
    obtain ⟨k', v'⟩ := e
    simp only [List.map_cons, List.mem_cons] at h
    push_neg at h
    have hk : ¬ (k' = k) := fun he => h.1 he.symm
    simp only [List.cons_append, alookup, if_neg hk]
    exact ih h.2

theorem mem_keys_iff {α : Type} {m : List (String × α)} {k : String} :
    k ∈ m.map Prod.fst ↔ ∃ v, (k, v) ∈ m := by
  constructor
  · intro h
    obtain ⟨⟨k', v⟩, hm, he⟩ := List.mem_map.mp h
    exact ⟨v, by cases he; exact hm⟩
  · rintro ⟨v, hv⟩
    exact List.mem_map.mpr ⟨(k, v), hv, rfl⟩

theorem strTake_of_length_le {name : String} {k : Nat} (h : name.data.length ≤ k) :
    strTake name k = name := by
  unfold strTake
  rw [List.take_of_length_le h]

theorem findAlias_some {name : String} {used : List String} {a : String}
    (h : findAlias name used = some a) : (∃ k, a = strTake name k) ∧ a ∉ used := by
  unfold findAlias at h
  cases hf : (List.range' 3 (name.data.length + 1)).find?
      (fun k => !selem (strTake name k) used) with
  | none => rw [hf] at h; cases h
  | some k =>
    rw [hf] at h
    cases h
    have hp := List.find?_some hf
    simp only [Bool.not_eq_true'] at hp
    exact ⟨⟨k, rfl⟩, selem_eq_false_iff.mp hp⟩

theorem rsplitLastSpace_eq_none {l : List Char} (h : ' ' ∉ l) : rsplitLastSpace l = none := by
  induction l with
  | nil => rfl
  | cons c rest ih =>
    simp only [List.mem_cons] at h
    push_neg at h
    have hc : ¬ (c = ' ') := fun he => h.1 he.symm
    simp only [rsplitLastSpace, ih h.2, if_neg hc]

theorem rsplitLastSpace_append {b t : List Char} (h : ' ' ∉ t) :
    rsplitLastSpace (b ++ ' ' :: t) = some (b, t) := by
  induction b with
  | nil => simp [rsplitLastSpace, rsplitLastSpace_eq_none h]
  | cons c b ih => simp [rsplitLastSpace, ih]

theorem parseJoinString_no_space {s : String} (h : ' ' ∉ s.data) :
    parseJoinString s = ("INNER JOIN", s) := by
  unfold parseJoinString
  rw [rsplitLastSpace_eq_none h]

theorem parseJoinString_split {kw tbl : String} (h : ' ' ∉ tbl.data) :
    parseJoinString (kw ++ " " ++ tbl) = (pyUpper kw, tbl) := by
  have hdata : (kw ++ " " ++ tbl).data = kw.data ++ ' ' :: tbl.data := by
    simp [String.data_append]
  unfold parseJoinString
  rw [hdata, rsplitLastSpace_append h]

theorem buildDirectJoin_ok_shape {al : List (String × String)} {p : Table} {k jt c : String}
    (h : buildDirectJoin al p k jt = Except.ok c) : ∃ rest, c = jt ++ " " ++ rest := by
  unfold buildDirectJoin at h
  simp only [] at h
  repeat split at h <;> try cases h
  exact ⟨_, rfl⟩

theorem firstPass_ok {ts : List Table} {used u : List String} {m : List (String × String)}
    (h : firstPass ts used = Except.ok (m, u)) :
    m = ts.filterMap (fun t => (t.userAlias).map (fun a => (t.name, a))) ∧
    u = used ++ m.map Prod.snd ∧
    (m.map Prod.snd).Nodup ∧
    ∀ a ∈ m.map Prod.snd, a ∉ used := by
  induction ts generalizing used u m with
  | nil =>
    simp only [firstPass, Except.ok.injEq, Prod.mk.injEq] at h
    obtain ⟨rfl, rfl⟩ := h
    simp
  | cons t ts ih =>
    cases hua : t.userAlias with
    | none =>
      simp only [firstPass, hua] at h
      obtain ⟨h1, h2, h3, h4⟩ := ih h
      exact ⟨by simp [List.filterMap_cons, hua, h1], h2, h3, h4⟩
    | some a =>
      simp only [firstPass, hua] at h
      by_cases hsel : selem a used
      · rw [if_pos hsel] at h; cases h
      · rw [if_neg hsel] at h
        cases hrec : firstPass ts (used ++ [a]) with
        | error e => rw [hrec] at h; cases h
        | ok p =>
          obtain ⟨m', u'⟩ := p
          rw [hrec] at h
          simp only [Except.ok.injEq, Prod.mk.injEq] at h
          obtain ⟨rfl, rfl⟩ := h
          obtain ⟨h1, h2, h3, h4⟩ := ih hrec
          have hamem : a ∈ used ++ [a] := by simp
          have hannot : a ∉ m'.map Prod.snd := fun hmem => h4 a hmem hamem
          refine ⟨by simp [List.filterMap_cons, hua, h1], ?_, ?_, ?_⟩
          · simp [h2, List.append_assoc]
          · exact List.nodup_cons.mpr ⟨hannot, h3⟩
          · intro x hx
            rcases List.mem_cons.mp hx with rfl | hx'
            · exact fun hc => hsel (selem_iff.mpr hc)
            · intro hc
              exact h4 x hx' (List.mem_append_left _ hc)

theorem firstPass_error {ts : List Table} {used : List String} {e : String}
    (h : firstPass ts used = Except.error e) : ∃ a, e = dupAliasMsg a := by
  induction ts generalizing used with
  | nil => simp [firstPass] at h
  | cons t ts ih =>
    cases hua : t.userAlias with
    | none =>
      simp only [firstPass, hua] at h
      exact ih h
    | some a =>
      simp only [firstPass, hua] at h
      by_cases hsel : selem a used
      · rw [if_pos hsel] at h
        exact ⟨a, (Except.error.inj h).symm⟩
      · rw [if_neg hsel] at h
        cases hrec : firstPass ts (used ++ [a]) with
        | error e' =>
          rw [hrec] at h
          cases h
          exact ih hrec
        | ok p => rw [hrec] at h; cases h

theorem secondPass_ok {ts : List Table} {used u : List String} {m : List (String × String)}
    (h : secondPass ts used = some (m, u)) :
    m.map Prod.fst = (ts.filter (fun t => (t.userAlias).isNone)).map Table.name ∧
    (∀ e ∈ m, ∃ k, e.2 = strTake e.1 k) ∧
    u = used ++ m.map Prod.snd ∧
    (m.map Prod.snd).Nodup ∧
    ∀ a ∈ m.map Prod.snd, a ∉ used := by
  induction ts generalizing used u m with
  | nil =>
    simp only [secondPass, Option.some.injEq, Prod.mk.injEq] at h
    obtain ⟨rfl, rfl⟩ := h
    simp
  | cons t ts ih =>
    cases hua : t.userAlias with
    | some a =>
      simp only [secondPass, hua] at h
      obtain ⟨h1, h2, h3, h4, h5⟩ := ih h
      exact ⟨by simp [List.filter_cons, hua, h1], h2, h3, h4, h5⟩
    | none =>
      simp only [secondPass, hua] at h
      cases hfa : findAlias t.name used with
      | none => simp only [hfa] at h; cases h
      | some a =>
        simp only [hfa] at h
        cases hrec : secondPass ts (used ++ [a]) with
        | none => simp only [hrec] at h; cases h
        | some p =>
          obtain ⟨m', u'⟩ := p
          simp only [hrec, Option.some.injEq, Prod.mk.injEq] at h
          obtain ⟨rfl, rfl⟩ := h
          obtain ⟨hpre, hnin⟩ := findAlias_some hfa
          obtain ⟨h1, h2, h3, h4, h5⟩ := ih hrec
          have hamem : a ∈ used ++ [a] := by simp
          have hannot : a ∉ m'.map Prod.snd := fun hmem => h5 a hmem hamem
          refine ⟨by simp [List.filter_cons, hua, h1], ?_, ?_, ?_, ?_⟩
          · intro e he
            rcases List.mem_cons.mp he with rfl | he'
            · exact hpre
            · exact h2 e he'
          · simp [h3, List.append_assoc]
          · exact List.nodup_cons.mpr ⟨hannot, h4⟩
          · intro x hx
            rcases List.mem_cons.mp hx with rfl | hx'
            · exact hnin
            · intro hc
              exact h5 x hx' (List.mem_append_left _ hc)

theorem firstPass_entries_fst {ts : List Table} :
    (ts.filterMap (fun t => (t.userAlias).map (fun a => (t.name, a)))).map Prod.fst =
    (ts.filter (fun t => (t.userAlias).isSome)).map Table.name := by
  induction ts with
  | nil => rfl
  | cons t ts ih =>
    cases hua : t.userAlias with
    | none => simp [List.filterMap_cons, List.filter_cons, hua, ih]
    | some a => simp [List.filterMap_cons, List.filter_cons, hua, ih]

theorem firstPass_entries_snd {ts : List Table} :
    (ts.filterMap (fun t => (t.userAlias).map (fun a => (t.name, a)))).map Prod.snd =
    ts.filterMap Table.userAlias := by
  induction ts with
  | nil => rfl
  | cons t ts ih =>
    cases hua : t.userAlias with
    | none => simp [List.filterMap_cons, hua, ih]
    | some a => simp [List.filterMap_cons, hua, ih]

/-- Claim C8: for every relationship and join key, `get_table_name` returns
the override when the override is a non-empty string, and returns the join
key when the override is `None` or the empty string (an empty-string override
behaves exactly as no override). -/
theorem claim_C8_get_table_name (j : TableJoinAttribute) (k : String) :
    (∀ n, j.table_name = some n → n ≠ "" → j.get_table_name k = n) ∧
    (j.table_name = none → j.get_table_name k = k) ∧
    (j.table_name = some "" → j.get_table_name k = k) := by
  refine ⟨fun n hn hne => ?_, fun hn => ?_, fun hn => ?_⟩
  · simp only [TableJoinAttribute.get_table_name, hn]
    exact if_neg hne
  · simp only [TableJoinAttribute.get_table_name, hn]
  · simp [TableJoinAttribute.get_table_name, hn]

/-- Witness for C8 at the inputs of the repository's own unit tests. -/
theorem claim_C8_witness :
    TableJoinAttribute.get_table_name ⟨"id", "user_id", some "addresses"⟩ "billing_address" =
      "addresses" ∧
    TableJoinAttribute.get_table_name ⟨"id", "user_id", none⟩ "orders" = "orders" ∧
    TableJoinAttribute.get_table_name ⟨"id", "user_id", some ""⟩ "orders" = "orders" :=
  ⟨(claim_C8_get_table_name ⟨"id", "user_id", some "addresses"⟩ "billing_address").1
      "addresses" rfl (by decide),
   (claim_C8_get_table_name ⟨"id", "user_id", none⟩ "orders").2.1 rfl,
   (claim_C8_get_table_name ⟨"id", "user_id", some ""⟩ "orders").2.2 rfl⟩

/-- Claim C1 counterexample: on the spec scenario exactly as claimed — select
entry `"u.name"` (the *alias* used as qualifier) — the build raises
`Table 'u' not found` (the alias mapping is keyed by table names), so it does
not return the claimed pair. -/
theorem claim_C1_counterexample :
    buildQuery scenarioTables selectAsClaimed (JoinsArg.ofList [JoinRequest.str "orders"]) =
      some (Except.error
        "Table 'u' not found in tables list. Available tables: ['users', 'orders']") ∧
    buildQuery scenarioTables selectAsClaimed (JoinsArg.ofList [JoinRequest.str "orders"]) ≠
      some (Except.ok (claimedScenarioSql, [])) := by
  constructor
  · decide
  · decide

/-- Claim C1 amended: with the select entry written with the table-name
qualifier the code expects (`"users.name"` instead of `"u.name"`), the build
returns exactly the claimed pair
`("SELECT u.name, COUNT(ord.id) AS n FROM users u INNER JOIN orders ord ON
u.id = ord.user_id", {})`. -/
theorem claim_C1_scenario_amended :
    buildQuery scenarioTables selectByTableName (JoinsArg.ofList [JoinRequest.str "orders"]) =
      some (Except.ok (claimedScenarioSql, [])) := by
  decide

/-- Claim C2 counterexample: the table list `[users, use]` has pairwise
distinct names and no user aliases, yet alias generation does not terminate:
`users` receives the generated alias `use`, and for table `use` every prefix
the loop can ever test (`use`, then the full name `use` again at every longer
length) collides, so the Python `while` loop runs forever — modelled by
`generateTableAliases` returning `none`. -/
theorem claim_C2_counterexample :
    (divergingTables.map Table.name).Nodup ∧
    (∀ t ∈ divergingTables, t.userAlias = none) ∧
    generateTableAliases divergingTables = none := by
  refine ⟨by decide, by decide, by decide⟩

/-- Claim C2 amended: the alias-generation loop for a table terminates
provided the *full table name* is not itself an already-used alias (which the
table-name-uniqueness invariant alone does not guarantee): starting from the
3-character prefix and lengthening on each collision, it finds a
non-colliding prefix of the name, with the full name as the worst case. -/
theorem claim_C2_amended (name : String) (used : List String) (h : name ∉ used) :
    ∃ a, findAlias name used = some a ∧ a ∉ used ∧ ∃ k, a = strTake name k := by
  have hk0 : name.data.length + 3 ∈ List.range' 3 (name.data.length + 1) := by
    rw [List.mem_range']
    exact ⟨name.data.length, by omega, by ring⟩
  have htake : strTake name (name.data.length + 3) = name :=
    strTake_of_length_le (by omega)
  have hp : (fun k => !selem (strTake name k) used) (name.data.length + 3) = true := by
    simp only [htake, Bool.not_eq_true']
    exact selem_eq_false_iff.mpr h
  have hsome : ((List.range' 3 (name.data.length + 1)).find?
      (fun k => !selem (strTake name k) used)).isSome := by
    rw [List.find?_isSome]
    exact ⟨name.data.length + 3, hk0, hp⟩
  obtain ⟨k, hk⟩ := Option.isSome_iff_exists.mp hsome
  have hpk := List.find?_some hk
  simp only [Bool.not_eq_true'] at hpk
  refine ⟨strTake name k, ?_, selem_eq_false_iff.mp hpk, k, rfl⟩
  unfold findAlias
  rw [hk]
  rfl

/-- Witness for the amended C2: table name `orders` with used aliases
`["u"]`. -/
theorem claim_C2_amended_witness :
    ∃ a, findAlias "orders" ["u"] = some a ∧ a ∉ ["u"] ∧ ∃ k, a = strTake "orders" k :=
  claim_C2_amended "orders" ["u"] (by decide)

/-- Claim C9: a structured `Join` whose `via_steps` is the empty list is
treated identically to one whose `via_steps` is absent (`None`): both are
resolved as a direct join on the join key from the primary table with the
`INNER JOIN` keyword, emitting exactly one JOIN clause when the direct join
succeeds (and that join's error otherwise). -/
theorem claim_C9_empty_via_steps (registry : List (String × Table))
    (al : List (String × String)) (p : Table) (k : String) :
    generateJoinClauses registry al p (JoinsArg.ofJoin ⟨k, some []⟩) =
      generateJoinClauses registry al p (JoinsArg.ofJoin ⟨k, none⟩) ∧
    generateJoinClauses registry al p (JoinsArg.ofList [JoinRequest.obj ⟨k, some []⟩]) =
      generateJoinClauses registry al p (JoinsArg.ofList [JoinRequest.obj ⟨k, none⟩]) ∧
    generateJoinClauses registry al p (JoinsArg.ofJoin ⟨k, some []⟩) =
      Except.map (fun c => [c]) (buildDirectJoin al p k JoinType.INNER.value) := by
  refine ⟨rfl, rfl, ?_⟩
  show joinRequestClauses registry al p (JoinRequest.obj ⟨k, some []⟩) = _
  simp only [joinRequestClauses, truthyList, List.isEmpty_nil, Bool.not_true, if_neg]
  cases buildDirectJoin al p k JoinType.INNER.value <;> rfl

theorem truthyStr_none : truthyStr none = none := rfl

/-- Claim C6: rendering a structured column applies fixed precedence
aggregate > distinct > plain — when an aggregate is set the distinct flag is
ignored (e.g. `SUM` + `distinct=True` renders `SUM(ord.id)`); count-distinct
renders `COUNT(DISTINCT <expr>)` and other aggregates `<FUNC>(<expr>)`; and
the ` AS <alias>` suffix is appended last regardless of branch. -/
theorem claim_C6_to_sql_precedence (c : SelectColumn) (al : List (String × String)) :
    (c.agg_function.isSome →
      c.to_sql al = SelectColumn.to_sql { c with distinct := false } al) ∧
    (c.to_sql al = (SelectColumn.to_sql { c with «alias» := none } al).map
      (fun e => e ++ aliasSuffix c)) ∧
    (∀ f s, c.agg_function = some f → c.to_sql al = Except.ok s →
      ∃ e, s = (if f = AggFunction.COUNT_DISTINCT then "COUNT(DISTINCT " ++ e ++ ")"
                else f.value ++ "(" ++ e ++ ")") ++ aliasSuffix c) ∧
    SelectColumn.to_sql ⟨"id", some "orders", none, some AggFunction.SUM, true⟩
      scenarioAliases = Except.ok "SUM(ord.id)" := by
  refine ⟨?_, ?_, ?_, by decide⟩
  · intro h
    obtain ⟨f, hf⟩ := Option.isSome_iff_exists.mp h
    simp only [SelectColumn.to_sql, hf]
  · cases htn : truthyStr c.table with
    | none =>
      cases hal : truthyStr c.«alias» <;>
        simp [SelectColumn.to_sql, truthyStr_none, htn, hal, aliasSuffix, Except.map,
          String.append_assoc]
    | some tn =>
      cases hlk : alookup tn al with
      | none => simp [SelectColumn.to_sql, truthyStr_none, htn, hlk, Except.map]
      | some a =>
        cases hal : truthyStr c.«alias» <;>
          simp [SelectColumn.to_sql, truthyStr_none, htn, hlk, hal, aliasSuffix, Except.map,
            String.append_assoc]
  · intro f s hf hok
    simp only [SelectColumn.to_sql, hf] at hok
    cases htn : truthyStr c.table with
    | none =>
      rw [htn] at hok
      cases hal : truthyStr c.«alias» <;>
        rw [hal] at hok <;> cases hok <;>
        exact ⟨c.column, by simp [aliasSuffix, hal, String.append_assoc]⟩
    | some tn =>
      simp only [htn] at hok
      cases hlk : alookup tn al with
      | none => simp only [hlk] at hok; cases hok
      | some a =>
        simp only [hlk] at hok
        cases hal : truthyStr c.«alias» <;>
          simp only [hal] at hok <;> cases hok <;>
          exact ⟨a ++ "." ++ c.column, by simp [aliasSuffix, hal, String.append_assoc]⟩

/-- Witness for C6: COUNT with `distinct=True` and alias `n` on the scenario
alias mapping. -/
theorem claim_C6_witness :
    SelectColumn.to_sql ⟨"id", some "orders", some "n", some AggFunction.COUNT, true⟩
        scenarioAliases =
      SelectColumn.to_sql ⟨"id", some "orders", some "n", some AggFunction.COUNT, false⟩
        scenarioAliases ∧
    ∃ e, "COUNT(ord.id) AS n" =
      (if AggFunction.COUNT = AggFunction.COUNT_DISTINCT then "COUNT(DISTINCT " ++ e ++ ")"
       else AggFunction.COUNT.value ++ "(" ++ e ++ ")") ++
      aliasSuffix ⟨"id", some "orders", some "n", some AggFunction.COUNT, true⟩ :=
  ⟨(claim_C6_to_sql_precedence
      ⟨"id", some "orders", some "n", some AggFunction.COUNT, true⟩ scenarioAliases).1 rfl,
   (claim_C6_to_sql_precedence
      ⟨"id", some "orders", some "n", some AggFunction.COUNT, true⟩ scenarioAliases).2.2.1
      AggFunction.COUNT "COUNT(ord.id) AS n" rfl (by decide)⟩

/-- Claim C7 counterexample: for the relationship key `"a b"` (a key
containing a space), the structured request `Join("a b")` produces the
expected inner join, while the string form `"a b"` is split at the space and
fails with `Join 'b' not found` — the two forms are not equivalent for every
key. -/
theorem claim_C7_counterexample :
    generateJoinClauses spaceKeyRegistry scenarioAliases usersSpaceKey
        (JoinsArg.ofJoin ⟨"a b", none⟩) =
      Except.ok ["INNER JOIN orders ord ON u.id = ord.x"] ∧
    generateJoinClauses spaceKeyRegistry scenarioAliases usersSpaceKey
        (JoinsArg.ofList [JoinRequest.str "a b"]) =
      Except.error "Join 'b' not found in table 'users' joins" ∧
    generateJoinClauses spaceKeyRegistry scenarioAliases usersSpaceKey
        (JoinsArg.ofJoin ⟨"a b", none⟩) ≠
      generateJoinClauses spaceKeyRegistry scenarioAliases usersSpaceKey
        (JoinsArg.ofList [JoinRequest.str "a b"]) := by
  refine ⟨by decide, by decide, by decide⟩

/-- Claim C7 amended: for every join request targeting a relationship key `k`
*containing no space*, the structured object form, the one-element list form,
and the plain string form all resolve to the same result — one direct join
clause from the primary table using the `INNER JOIN` keyword. -/
theorem claim_C7_amended (registry : List (String × Table)) (al : List (String × String))
    (p : Table) (k : String) (h : ' ' ∉ k.data) :
    generateJoinClauses registry al p (JoinsArg.ofJoin ⟨k, none⟩) =
      Except.map (fun c => [c]) (buildDirectJoin al p k JoinType.INNER.value) ∧
    generateJoinClauses registry al p (JoinsArg.ofList [JoinRequest.obj ⟨k, none⟩]) =
      Except.map (fun c => [c]) (buildDirectJoin al p k JoinType.INNER.value) ∧
    generateJoinClauses registry al p (JoinsArg.ofList [JoinRequest.str k]) =
      Except.map (fun c => [c]) (buildDirectJoin al p k JoinType.INNER.value) := by
  have hparse := parseJoinString_no_space h
  refine ⟨?_, ?_, ?_⟩
  · show joinRequestClauses registry al p (JoinRequest.obj ⟨k, none⟩) = _
    simp only [joinRequestClauses, truthyList]
    cases buildDirectJoin al p k JoinType.INNER.value <;> rfl
  · show requestListClauses registry al p [JoinRequest.obj ⟨k, none⟩] = _
    simp only [requestListClauses, joinRequestClauses, truthyList]
    cases hbd : buildDirectJoin al p k JoinType.INNER.value <;> simp [Except.map]
  · show requestListClauses registry al p [JoinRequest.str k] = _
    simp only [requestListClauses, joinRequestClauses, hparse]
    cases hbd : buildDirectJoin al p k "INNER JOIN" <;>
      simp [hbd, JoinType.value, Except.map]

/-- Witness for the amended C7: the `orders` key of the spec scenario. -/
theorem claim_C7_witness :
    generateJoinClauses (mkRegistry scenarioTables) scenarioAliases usersTable
        (JoinsArg.ofJoin ⟨"orders", none⟩) =
      Except.map (fun c => [c])
        (buildDirectJoin scenarioAliases usersTable "orders" JoinType.INNER.value) ∧
    generateJoinClauses (mkRegistry scenarioTables) scenarioAliases usersTable
        (JoinsArg.ofList [JoinRequest.obj ⟨"orders", none⟩]) =
      Except.map (fun c => [c])
        (buildDirectJoin scenarioAliases usersTable "orders" JoinType.INNER.value) ∧
    generateJoinClauses (mkRegistry scenarioTables) scenarioAliases usersTable
        (JoinsArg.ofList [JoinRequest.str "orders"]) =
      Except.map (fun c => [c])
        (buildDirectJoin scenarioAliases usersTable "orders" JoinType.INNER.value) :=
  claim_C7_amended (mkRegistry scenarioTables) scenarioAliases usersTable "orders" (by decide)

/-- Claim C10: the leading keyword of a string join request is never
validated: for every request of the shape `"<words> <table>"` (table token
containing no space), the text before the last space is upper-cased and
emitted verbatim as the join keyword, provided the trailing token resolves as
a join key. -/
theorem claim_C10_keyword_not_validated (kw tbl : String) (registry : List (String × Table))
    (al : List (String × String)) (p : Table) (h : ' ' ∉ tbl.data) :
    parseJoinString (kw ++ " " ++ tbl) = (pyUpper kw, tbl) ∧
    generateJoinClauses registry al p (JoinsArg.ofList [JoinRequest.str (kw ++ " " ++ tbl)]) =
      Except.map (fun c => [c]) (buildDirectJoin al p tbl (pyUpper kw)) ∧
    (∀ c, buildDirectJoin al p tbl (pyUpper kw) = Except.ok c →
      ∃ rest, c = pyUpper kw ++ " " ++ rest) := by
  have hparse := @parseJoinString_split kw tbl h
  refine ⟨hparse, ?_, fun c hc => buildDirectJoin_ok_shape hc⟩
  show requestListClauses registry al p [JoinRequest.str (kw ++ " " ++ tbl)] = _
  simp only [requestListClauses, joinRequestClauses, hparse]
  cases hbd : buildDirectJoin al p tbl (pyUpper kw) <;> simp [hbd, Except.map]

/-- Witness for C10: the request `"foo orders"` in the spec scenario produces
a clause starting `FOO orders`, and the full build returns it verbatim. -/
theorem claim_C10_witness :
    buildQuery scenarioTables [SelectItem.str "users.name"]
        (JoinsArg.ofList [JoinRequest.str "foo orders"]) =
      some (Except.ok
        ("SELECT u.name FROM users u FOO orders ord ON u.id = ord.user_id", [])) ∧
    parseJoinString ("foo" ++ " " ++ "orders") = (pyUpper "foo", "orders") ∧
    generateJoinClauses (mkRegistry scenarioTables) scenarioAliases usersTable
        (JoinsArg.ofList [JoinRequest.str ("foo" ++ " " ++ "orders")]) =
      Except.map (fun c => [c])
        (buildDirectJoin scenarioAliases usersTable "orders" (pyUpper "foo")) :=
  ⟨by decide,
   (claim_C10_keyword_not_validated "foo" "orders" (mkRegistry scenarioTables)
      scenarioAliases usersTable (by decide)).1,
   (claim_C10_keyword_not_validated "foo" "orders" (mkRegistry scenarioTables)
      scenarioAliases usersTable (by decide)).2.1⟩

/-- Claim C4: every error condition of the taxonomy aborts the build with a
raised validation error and no SQL output: (1) duplicate table names — for
*every* input; and concrete instances of (2) duplicate user alias, (3)
qualified select reference to an unknown table (`"ghost.col"`), (4) join key
absent from the primary table's relationships, (5) join target table absent
from the alias mapping, (6) no reverse-lookup key to a via-step's table.  An
`Except.error` result carries no SQL string, so the build has no
partial-statement output. -/
theorem claim_C4_error_taxonomy :
    (∀ (tables : List Table) (select : List SelectItem) (joins : JoinsArg),
      ¬ (tables.map Table.name).Nodup →
      ∃ e, buildQuery tables select joins = some (Except.error e)) ∧
    buildQuery [⟨"a", some "x", []⟩, ⟨"b", some "x", []⟩] [] (JoinsArg.ofList []) =
      some (Except.error "Duplicate alias 'x' found") ∧
    buildQuery scenarioTables [SelectItem.str "ghost.col"] (JoinsArg.ofList []) =
      some (Except.error
        "Table 'ghost' not found in tables list. Available tables: ['users', 'orders']") ∧
    buildQuery scenarioTables selectByTableName
        (JoinsArg.ofList [JoinRequest.str "nonexistent"]) =
      some (Except.error "Join 'nonexistent' not found in table 'users' joins") ∧
    buildQuery [usersPay] [] (JoinsArg.ofList [JoinRequest.str "payments"]) =
      some (Except.error "Target table 'payments' not found in tables list") ∧
    buildQuery scenarioTables selectByTableName
        (JoinsArg.ofJoin ⟨"orders", some [⟨"users", JoinType.INNER⟩]⟩) =
      some (Except.error "No join found from 'users' to 'users'") := by
  refine ⟨?_, by decide, by decide, by decide, by decide, by decide⟩
  intro tables select joins h
  have hd : hasDup (tables.map Table.name) = true := hasDup_iff.mpr h
  refine ⟨"Duplicate table names found", ?_⟩
  unfold buildQuery
  rw [if_pos hd]

/-- Witness for C4's universally-quantified duplicate-table-name conjunct. -/
theorem claim_C4_witness :
    ∃ e, buildQuery [⟨"t", none, []⟩, ⟨"t", none, []⟩] [] (JoinsArg.ofList []) =
      some (Except.error e) :=
  claim_C4_error_taxonomy.1 [⟨"t", none, []⟩, ⟨"t", none, []⟩] [] (JoinsArg.ofList [])
    (by decide)

theorem find?_eq_some_split {α : Type} {p : α → Bool} {l : List α} {a : α}
    (h : l.find? p = some a) :
    ∃ l1 l2, l = l1 ++ a :: l2 ∧ p a = true ∧ ∀ x ∈ l1, p x = false := by
  induction l with
  | nil => cases h
  | cons x l ih =>
    by_cases hp : p x
    · rw [List.find?_cons_of_pos _ hp] at h
      cases h
      exact ⟨[], l, rfl, hp, by simp⟩
    · rw [List.find?_cons_of_neg _ hp] at h
      obtain ⟨l1, l2, rfl, hpa, hall⟩ := ih h
      refine ⟨x :: l1, l2, rfl, hpa, ?_⟩
      intro y hy
      rcases List.mem_cons.mp hy with rfl | hy'
      · exact Bool.not_eq_true _ ▸ (by simpa using hp)
      · exact hall y hy'

/-- Claim C3: the via-chain resolver walks the steps in supplied order with a
current-table cursor: (a) `_find_join_to_table` returns the *first* key in
mapping order whose relationship's effective target equals the requested
table, (b) a successful walk over `n` steps yields exactly `n` JOIN clauses
in step order, each beginning with its step's declared join keyword, and (c)
each successful step validates its table against the alias mapping, resolves
the key by reverse lookup on the cursor, emits one clause built with the
step's join kind, and advances the cursor through the registry. -/
theorem claim_C3_via_chain :
    (∀ (t : Table) (nm key : String), findJoinToTable t nm = Except.ok key →
      ∃ m1 jd m2, t.joins = m1 ++ (key, jd) :: m2 ∧ jd.get_table_name key = nm ∧
        ∀ e ∈ m1, e.2.get_table_name e.1 ≠ nm) ∧
    (∀ (registry : List (String × Table)) (al : List (String × String)) (cur : Table)
      (steps : List ViaStep) (clauses : List String),
      buildViaJoinWithSteps registry al cur steps = Except.ok clauses →
      clauses.length = steps.length ∧
      ∀ i (hi : i < steps.length) (hc : i < clauses.length),
        ∃ rest, clauses.get ⟨i, hc⟩ = (steps.get ⟨i, hi⟩).join_type.value ++ " " ++ rest) ∧
    (∀ (registry : List (String × Table)) (al : List (String × String)) (cur : Table)
      (s : ViaStep) (rest : List ViaStep) (out : List String),
      buildViaJoinWithSteps registry al cur (s :: rest) = Except.ok out →
      ∃ key c nxt cs, out = c :: cs ∧
        (alookup s.table_name al).isSome ∧
        findJoinToTable cur s.table_name = Except.ok key ∧
        buildDirectJoin al cur key s.join_type.value = Except.ok c ∧
        alookup s.table_name registry = some nxt ∧
        buildViaJoinWithSteps registry al nxt rest = Except.ok cs) := by
  refine ⟨?_, ?_, ?_⟩
  · intro t nm key h
    unfold findJoinToTable at h
    cases hf : t.joins.find? (fun kv => kv.2.get_table_name kv.1 == nm) with
    | none => rw [hf] at h; cases h
    | some kv =>
      rw [hf] at h
      obtain ⟨k', jd⟩ := kv
      cases h
      obtain ⟨m1, m2, heq, hpa, hall⟩ := find?_eq_some_split hf
      refine ⟨m1, jd, m2, heq, by simpa using hpa, ?_⟩
      intro e he
      have := hall e he
      simpa using this
  · intro registry al cur steps
    induction steps generalizing cur with
    | nil =>
      intro clauses h
      cases h
      exact ⟨rfl, fun i hi => absurd hi (by simp)⟩
    | cons s rest ih =>
      intro clauses h
      unfold buildViaJoinWithSteps at h
      cases halk : alookup s.table_name al with
      | none => simp [halk] at h
      | some via_alias =>
        simp only [halk, Option.isNone_some, Bool.false_eq_true, if_false] at h
        cases hfj : findJoinToTable cur s.table_name with
        | error e => simp only [hfj] at h; cases h
        | ok key =>
          simp only [hfj] at h
          cases hbd : buildDirectJoin al cur key s.join_type.value with
          | error e => simp only [hbd] at h; cases h
          | ok c =>
            simp only [hbd] at h
            cases hreg : alookup s.table_name registry with
            | none => simp only [hreg] at h; cases h
            | some nxt =>
              simp only [hreg] at h
              cases hrec : buildViaJoinWithSteps registry al nxt rest with
              | error e => simp only [hrec] at h; cases h
              | ok cs =>
                simp only [hrec, Except.ok.injEq] at h
                subst h
                obtain ⟨hlen, hget⟩ := ih nxt cs hrec
                refine ⟨by simp [hlen], ?_⟩
                intro i hi hc
                cases i with
                | zero => simpa using buildDirectJoin_ok_shape hbd
                | succ n =>
                  exact hget n (Nat.lt_of_succ_lt_succ hi) (Nat.lt_of_succ_lt_succ hc)
  · intro registry al cur s rest out h
    unfold buildViaJoinWithSteps at h
    cases halk : alookup s.table_name al with
    | none => simp [halk] at h
    | some via_alias =>
      simp only [halk, Option.isNone_some, Bool.false_eq_true, if_false] at h
      cases hfj : findJoinToTable cur s.table_name with
      | error e => simp only [hfj] at h; cases h
      | ok key =>
        simp only [hfj] at h
        cases hbd : buildDirectJoin al cur key s.join_type.value with
        | error e => simp only [hbd] at h; cases h
        | ok c =>
          simp only [hbd] at h
          cases hreg : alookup s.table_name registry with
          | none => simp only [hreg] at h; cases h
          | some nxt =>
            simp only [hreg] at h
            cases hrec : buildViaJoinWithSteps registry al nxt rest with
            | error e => simp only [hrec] at h; cases h
            | ok cs =>
              simp only [hrec, Except.ok.injEq] at h
              subst h
              exact ⟨key, c, nxt, cs, rfl, rfl, rfl, hbd, rfl, hrec⟩

/-- Witness for C3: the spec's 3-step via-chain scenario — 3 clauses in step
order, the last produced with `LEFT JOIN`. -/
theorem claim_C3_witness :
    buildViaJoinWithSteps viaRegistry viaAliases usersVia viaSteps3 = Except.ok viaClauses ∧
    viaClauses.length = viaSteps3.length ∧
    (∃ rest, "LEFT JOIN products pro ON orde.product_id = pro.id" =
      JoinType.LEFT.value ++ " " ++ rest) :=
  ⟨by decide,
   (claim_C3_via_chain.2.1 viaRegistry viaAliases usersVia viaSteps3 viaClauses (by decide)).1,
   (claim_C3_via_chain.2.1 viaRegistry viaAliases usersVia viaSteps3 viaClauses
      (by decide)).2 2 (by decide) (by decide)⟩

/-- Claim C5: whenever alias generation completes on a table list with unique
names, the produced mapping gives each table with a truthy user alias exactly
that alias, gives every other table some prefix of its own name, and all
alias values are pairwise distinct; and whenever two tables declare the same
user alias, alias generation fails with the duplicate-alias error. -/
theorem claim_C5_alias_mapping :
    (∀ (tables : List Table) (m : List (String × String)),
      (tables.map Table.name).Nodup →
      generateTableAliases tables = some (Except.ok m) →
      (∀ t ∈ tables, ∀ a, t.userAlias = some a → alookup t.name m = some a) ∧
      (∀ t ∈ tables, t.userAlias = none →
        ∃ a, alookup t.name m = some a ∧ ∃ k, a = strTake t.name k) ∧
      (m.map Prod.snd).Nodup) ∧
    (∀ tables : List Table, ¬ (tables.filterMap Table.userAlias).Nodup →
      ∃ a, generateTableAliases tables = some (Except.error (dupAliasMsg a))) := by
  constructor
  · intro tables m hnames hgen
    unfold generateTableAliases at hgen
    cases hfp : firstPass tables [] with
    | error e => simp only [hfp] at hgen; cases hgen
    | ok q =>
      obtain ⟨m1, u1⟩ := q
      simp only [hfp] at hgen
      cases hsp : secondPass tables u1 with
      | none => simp only [hsp] at hgen; cases hgen
      | some q2 =>
        obtain ⟨m2, u2⟩ := q2
        simp only [hsp, Option.some.injEq, Except.ok.injEq] at hgen
        subst hgen
        obtain ⟨hf1, hf2, hf3, _⟩ := firstPass_ok hfp
        obtain ⟨hs1, hs2, hs3, hs4, hs5⟩ := secondPass_ok hsp
        have hm1fst : m1.map Prod.fst =
            (tables.filter (fun t => (t.userAlias).isSome)).map Table.name := by
          rw [hf1]; exact firstPass_entries_fst
        have hm1snd : m1.map Prod.snd = tables.filterMap Table.userAlias := by
          rw [hf1]; exact firstPass_entries_snd
        have hu1 : u1 = m1.map Prod.snd := by simpa using hf2
        have hprednone : (fun t : Table => (t.userAlias).isNone) =
            (fun t : Table => !(t.userAlias).isSome) := by
          funext t; cases t.userAlias <;> rfl
        have hkeys : ((m1 ++ m2).map Prod.fst).Nodup := by
          rw [List.map_append, hm1fst, hs1, hprednone]
          have hperm := (List.filter_append_perm
            (fun t : Table => (t.userAlias).isSome) tables).map Table.name
          rw [List.map_append] at hperm
          exact hperm.nodup_iff.mpr hnames
        refine ⟨?_, ?_, ?_⟩
        · intro t ht a hua
          have hmem : (t.name, a) ∈ m1 := by
            rw [hf1]
            exact List.mem_filterMap.mpr ⟨t, ht, by rw [hua]; rfl⟩
          exact alookup_eq_some_of_mem hkeys (List.mem_append_left _ hmem)
        · intro t ht hua
          have hkey : t.name ∈ m2.map Prod.fst := by
            rw [hs1]
            exact List.mem_map.mpr ⟨t, List.mem_filter.mpr ⟨ht, by simp [hua]⟩, rfl⟩
          obtain ⟨v, hv⟩ := mem_keys_iff.mp hkey
          have hva : ∃ k, v = strTake t.name k := by
            have := hs2 (t.name, v) hv
            simpa using this
          refine ⟨v, ?_, hva⟩
          have hnotm1 : t.name ∉ m1.map Prod.fst := by
            intro hc
            exact (List.disjoint_of_nodup_append
              (by rwa [List.map_append] at hkeys)) hc hkey
          rw [alookup_append_right hnotm1]
          exact alookup_eq_some_of_mem
            (List.Nodup.of_append_right (by rwa [List.map_append] at hkeys)) hv
        · rw [List.map_append]
          refine List.Nodup.append hf3 hs4 ?_
          intro a ha1 ha2
          exact hs5 a ha2 (hu1 ▸ ha1)
  · intro tables hdup
    cases hfp : firstPass tables [] with
    | error e =>
      obtain ⟨a, rfl⟩ := firstPass_error hfp
      refine ⟨a, ?_⟩
      unfold generateTableAliases
      rw [hfp]
    | ok q =>
      obtain ⟨m1, u1⟩ := q
      obtain ⟨hf1, _, hf3, _⟩ := firstPass_ok hfp
      exfalso
      apply hdup
      have hsnd : m1.map Prod.snd = tables.filterMap Table.userAlias := by
        rw [hf1]; exact firstPass_entries_snd
      rwa [hsnd] at hf3

/-- Witness for C5: the spec scenario's alias mapping — the user alias of
`users`, a generated prefix alias for `orders`, distinct values — and the
concrete duplicate-alias failure. -/
theorem claim_C5_witness :
    alookup usersTable.name scenarioAliases = some "u" ∧
    (∃ a, alookup ordersTable.name scenarioAliases = some a ∧
      ∃ k, a = strTake ordersTable.name k) ∧
    (scenarioAliases.map Prod.snd).Nodup ∧
    ∃ a, generateTableAliases [⟨"a", some "x", []⟩, ⟨"b", some "x", []⟩] =
      some (Except.error (dupAliasMsg a)) :=
  ⟨(claim_C5_alias_mapping.1 scenarioTables scenarioAliases (by decide) (by decide)).1
      usersTable (by decide) "u" (by decide),
   (claim_C5_alias_mapping.1 scenarioTables scenarioAliases (by decide) (by decide)).2.1
      ordersTable (by decide) (by decide),
   (claim_C5_alias_mapping.1 scenarioTables scenarioAliases (by decide) (by decide)).2.2,
   claim_C5_alias_mapping.2 [⟨"a", some "x", []⟩, ⟨"b", some "x", []⟩] (by decide)⟩
